import Mathlib

/-!
Shallow embedding of the `felabackend` reservation backend
(`backend/app/main.py`, `models.py`, `schemas.py`).

Modelling conventions:
* Calendar dates are natural numbers counting days from an epoch that falls
  on a Monday, so `d % 7` is Python's `date.weekday()` (Monday = 0, Sunday = 6)
  and adding `timedelta(days = k)` is `d + k`.
* Times of day are hour/minute pairs; ISO-string comparison of well-formed
  zero-padded times (as done by the Python sort key) agrees with comparison of
  `timeKey` (minutes since midnight).
* Nullable SQL columns are `Option`; the SQL three-valued semantics of the
  generated filters is made explicit where it matters (`NOT IN` over a NULL
  column yields NULL, so the row is dropped; `col == None` is compiled by the
  ORM to `IS NULL`, so plain `Option` equality models the `==` filters).
* `models.py` declares the `email` and `cancellation_token` columns of
  `bookings` UNIQUE; the commit of an insert violating either raises an
  integrity error, modelled by the `integrityError` outcome.
-/

/-- A time of day (hour, minute), as used by `datetime.time` values here. -/
structure Time where
  hour : Nat
  minute : Nat
deriving DecidableEq, Repr

/-- Minutes since midnight; orders times the same way their zero-padded
ISO strings are ordered by the Python sort key. -/
def timeKey (t : Time) : Nat := t.hour * 60 + t.minute

/-- Zero-pad a number to two digits, as `strftime` does. -/
def pad2 (n : Nat) : String := if n < 10 then "0" ++ toString n else toString n

/-- `strftime('%H:%M')`. -/
def timeHM (t : Time) : String := pad2 t.hour ++ ":" ++ pad2 t.minute

/-- Row of the `special_events` table (`models.SpecialEvent`). -/
structure SpecialEvent where
  id : Nat
  display_name : String
  booking_date : Nat
  booking_time : Option Time
  is_closed : Bool
deriving DecidableEq, Repr

/-- Row of the `bookings` table (`models.Booking`). -/
structure Booking where
  id : Nat
  event_id : Option Nat
  name : String
  email : String
  phone : String
  booking_date : Nat
  booking_time : Option Time
  guests : Int
  cancellation_token : String
  notes : Option String
deriving DecidableEq, Repr

/-- Payload of `POST /api/bookings` (`schemas.BookingCreate`); note the absence
of any constraint on `guests`. -/
structure BookingCreate where
  event_id : Option Nat
  name : String
  email : String
  phone : String
  booking_date : Nat
  booking_time : Option Time
  guests : Int
  notes : Option String
deriving DecidableEq, Repr

/-- Payload of `POST /api/admin/special-events` (`schemas.SpecialEventCreate`). -/
structure SpecialEventCreate where
  display_name : String
  booking_date : Nat
  booking_time : Option Time
  is_closed : Bool
deriving DecidableEq, Repr

/-- The persistent state: the two tables. -/
structure DB where
  bookings : List Booking
  special_events : List SpecialEvent
deriving DecidableEq, Repr

/-- Python truthiness of an `Optional[int]`: `if booking.event_id:` is false
for `None` and for `0`. -/
def pyTruthyId : Option Nat → Bool
  | none => false
  | some n => n != 0

/-- Python truthiness of `ADMIN_PASSWORD` (an `Optional[str]`): `not ADMIN_PASSWORD`
holds for `None` and for the empty string. -/
def pyFalsyOptStr : Option String → Bool
  | none => true
  | some s => s == ""

/-- The two fixed brunch turns, `BRUNCH_SLOTS = [time(12, 0), time(13, 30)]`. -/
def BRUNCH_SLOTS : List Time := [⟨12, 0⟩, ⟨13, 30⟩]

/-- Python membership `booking.booking_time in BRUNCH_SLOTS`; `None` is not in
the list. -/
def inBrunchSlots : Option Time → Bool
  | none => false
  | some t => BRUNCH_SLOTS.contains t

/-- SQL filter `~Booking.booking_time.in_(BRUNCH_SLOTS)`: a NULL column makes
`NOT IN` evaluate to NULL, so rows with an absent time are dropped. -/
def sqlNotInBrunch : Option Time → Bool
  | none => false
  | some t => !(BRUNCH_SLOTS.contains t)

/-- The duplicate filter of `create_booking`: same email and, for a (truthy)
special-event request, the same `event_id`, otherwise the same date and time
(a `None` request time compiles to `IS NULL`, i.e. `Option` equality). -/
def isDuplicateOf (req : BookingCreate) (b : Booking) : Bool :=
  b.email == req.email &&
    (if pyTruthyId req.event_id then b.event_id == req.event_id
     else b.booking_date == req.booking_date && b.booking_time == req.booking_time)

/-- `MAX_GUESTS = 25`. -/
def MAX_GUESTS : Int := 25

/-- `booked_guests`: the capacity bucket's guest sum. The brunch branch filters
on (date, time); the evening branch filters on date and `NOT IN` the brunch
slots, which (by SQL NULL semantics) drops rows whose time is absent.
`sum` of no rows is NULL and `.scalar() or 0` turns it into 0, as does `List.sum`
of an empty list. -/
def bucketBooked (req : BookingCreate) (db : DB) : Int :=
  if inBrunchSlots req.booking_time then
    ((db.bookings.filter fun b =>
        b.booking_date == req.booking_date && b.booking_time == req.booking_time).map
      (·.guests)).sum
  else
    ((db.bookings.filter fun b =>
        b.booking_date == req.booking_date && sqlNotInBrunch b.booking_time).map
      (·.guests)).sum

/-- `error_context`: names the bucket in the capacity error message. -/
def errorContext (req : BookingCreate) : String :=
  match req.booking_time with
  | some t =>
      if BRUNCH_SLOTS.contains t then "per il turno delle " ++ timeHM t
      else "per la serata"
  | none => "per la serata"

/-- The capacity error message: remaining seats, or the fully-booked text when
`25 - booked <= 0`. -/
def capacityMessage (req : BookingCreate) (booked : Int) : String :=
  let available := MAX_GUESTS - booked
  if available ≤ 0 then "Spiacenti, siamo al completo " ++ errorContext req ++ "."
  else
    "Spiacenti, non c\x27è abbastanza posto " ++ errorContext req ++
      ". Posti rimasti: " ++ toString available ++ "."

/-- Outcome of `POST /api/bookings`: success with the new state and the
persisted record, one of the two HTTP 400 rejections (carrying the `detail`
string), or the integrity failure raised at commit when the UNIQUE column
constraints of `models.Booking` are violated. -/
inductive BookingResult where
  | ok (db : DB) (b : Booking)
  | duplicate (detail : String)
  | capacityExceeded (detail : String)
  | integrityError
deriving DecidableEq, Repr

/-- `create_booking` (`main.py`): duplicate check, then capacity check on the
request's bucket, then insert. `newId` and `newToken` stand for the
autoincrement primary key and the freshly generated UUID cancellation token;
the commit enforces the UNIQUE constraints on `email` and `cancellation_token`. -/
def create_booking (req : BookingCreate) (newId : Nat) (newToken : String)
    (db : DB) : BookingResult :=
  if db.bookings.any (isDuplicateOf req) then
    .duplicate "Hai già una prenotazione per questo specifico evento con la stessa email."
  else
    let booked := bucketBooked req db
    if booked + req.guests > MAX_GUESTS then
      .capacityExceeded (capacityMessage req booked)
    else if db.bookings.any (fun b =>
        b.email == req.email || b.cancellation_token == newToken) then
      .integrityError
    else
      let nb : Booking :=
        ⟨newId, req.event_id, req.name, req.email, req.phone, req.booking_date,
          req.booking_time, req.guests, newToken, req.notes⟩
      .ok { db with bookings := db.bookings ++ [nb] } nb

/-- Catalog entry kind, the `type` key of the dicts built by
`get_bookable_events`. -/
inductive EntryType where
  | special
  | brunch
deriving DecidableEq, Repr

/-- An element of the `GET /api/bookable-events` response. Presentation-only
fields (the `display_name` label) are not represented; brunch entries carry the
two offered slots and no id, special entries carry their id and optional time. -/
structure CatalogEntry where
  etype : EntryType
  id : Option Nat
  booking_date : Nat
  booking_time : Option Time
  available_slots : List Time
deriving DecidableEq, Repr

/-- The dict built for a stored special event. -/
def specialEntry (e : SpecialEvent) : CatalogEntry :=
  ⟨.special, some e.id, e.booking_date, e.booking_time, []⟩

/-- The dict built for a generated Sunday brunch. -/
def brunchEntry (d : Nat) : CatalogEntry :=
  ⟨.brunch, none, d, none, BRUNCH_SLOTS⟩

/-- The first day `>= d` whose weekday is Sunday (weekday 6); the day-by-day
scan of `get_bookable_events` reaches it first. -/
def nextSundayFrom (d : Nat) : Nat := d + (13 - d % 7) % 7

/-- The first `n` Sundays on or after day `d`, in scan order. -/
def sundaysFrom : Nat → Nat → List Nat
  | _, 0 => []
  | d, n + 1 => nextSundayFrom d :: sundaysFrom (nextSundayFrom d + 1) n

/-- The sort key's time component: an explicit time; for a brunch entry the
first offered slot; otherwise the `'00:00:00'` placeholder. -/
def sortKeyTime (e : CatalogEntry) : Nat :=
  match e.booking_time with
  | some t => timeKey t
  | none =>
      match e.etype, e.available_slots with
      | .brunch, s :: _ => timeKey s
      | _, _ => 0

/-- `events.sort(key=sort_key)` comparison: lexicographic on
(date, effective time); ISO-string comparison agrees with this numeric order. -/
def entryLE (a b : CatalogEntry) : Prop :=
  a.booking_date < b.booking_date ∨
    (a.booking_date = b.booking_date ∧ sortKeyTime a ≤ sortKeyTime b)

instance : DecidableRel entryLE := fun a b => by
  unfold entryLE; infer_instance

instance : IsTotal CatalogEntry entryLE := ⟨by intro a b; unfold entryLE; omega⟩

instance : IsTrans CatalogEntry entryLE := ⟨by intro a b c; unfold entryLE; omega⟩

/-- `get_bookable_events`: future-or-today special events, then the next 8
Sundays as brunch entries, sorted by (date, effective time). -/
def get_bookable_events (today : Nat) (specials : List SpecialEvent) :
    List CatalogEntry :=
  List.insertionSort entryLE
    ((specials.filter fun e => today ≤ e.booking_date).map specialEntry ++
      (sundaysFrom today 8).map brunchEntry)

/-- Outcome of `GET /api/bookings/cancel/token`. -/
inductive CancelResult where
  | success
  | notFound
deriving DecidableEq, Repr

/-- `cancel_booking`: find the first booking whose token matches exactly;
delete it, or report not-found (leaving the state unchanged). -/
def cancel_booking (token : String) (db : DB) : CancelResult × DB :=
  match db.bookings.find? (fun b => b.cancellation_token == token) with
  | none => (.notFound, db)
  | some _ =>
      (.success,
        { db with
          bookings := db.bookings.eraseP (fun b => b.cancellation_token == token) })

/-- `delete_special_event` core (after the auth gate): look the event up by id;
if absent report not-found and change nothing; otherwise delete every booking
whose `event_id` equals the id, then the event row itself. The deleted event is
returned. -/
def delete_special_event (eid : Nat) (db : DB) : Option SpecialEvent × DB :=
  match db.special_events.find? (fun e => e.id == eid) with
  | none => (none, db)
  | some e =>
      (some e,
        { bookings := db.bookings.filter fun b => !(b.event_id == some eid),
          special_events := db.special_events.eraseP (fun e => e.id == eid) })

/-- Time component of the SQL ORDER BY key for bookings; a NULL time sorts
below every concrete time (SQLite treats NULL as smaller than any value). -/
def timeKeyOpt : Option Time → Int
  | none => -1
  | some t => (timeKey t : Int)

/-- `ORDER BY booking_date DESC, booking_time DESC`. -/
def bookingDescLE (a b : Booking) : Prop :=
  b.booking_date < a.booking_date ∨
    (a.booking_date = b.booking_date ∧ timeKeyOpt b.booking_time ≤ timeKeyOpt a.booking_time)

instance : DecidableRel bookingDescLE := fun a b => by
  unfold bookingDescLE; infer_instance

instance : IsTotal Booking bookingDescLE := ⟨by intro a b; unfold bookingDescLE; omega⟩

instance : IsTrans Booking bookingDescLE := ⟨by intro a b c; unfold bookingDescLE; omega⟩

/-- `ORDER BY booking_date ASC, booking_time ASC` (NULL time first). -/
def bookingAscLE (a b : Booking) : Prop :=
  a.booking_date < b.booking_date ∨
    (a.booking_date = b.booking_date ∧ timeKeyOpt a.booking_time ≤ timeKeyOpt b.booking_time)

instance : DecidableRel bookingAscLE := fun a b => by
  unfold bookingAscLE; infer_instance

instance : IsTotal Booking bookingAscLE := ⟨by intro a b; unfold bookingAscLE; omega⟩

instance : IsTrans Booking bookingAscLE := ⟨by intro a b c; unfold bookingAscLE; omega⟩

/-- The filter block shared by `get_all_bookings` and the PDF export: a truthy
`event_id` wins; else a (date AND time) pair; else no filter. A non-`None`
date or time is always truthy in Python. -/
def adminFilter (db : DB) (event_date : Option Nat) (event_time : Option Time)
    (event_id : Option Nat) : List Booking :=
  if pyTruthyId event_id then
    db.bookings.filter fun b => b.event_id == event_id
  else
    match event_date, event_time with
    | some d, some t =>
        db.bookings.filter fun b => b.booking_date == d && b.booking_time == some t
    | _, _ => db.bookings

/-- `get_all_bookings` core (after the auth gates): filtered total count plus
the requested page of the descending-ordered rows. -/
def get_all_bookings (db : DB) (skip limit : Nat) (event_date : Option Nat)
    (event_time : Option Time) (event_id : Option Nat) : Nat × List Booking :=
  let q := adminFilter db event_date event_time event_id
  (q.length, ((List.insertionSort bookingDescLE q).drop skip).take limit)

/-- `export_bookings_to_pdf` core: same filters, ascending order, capped at
`limit` rows (the PDF rendering itself is presentation). -/
def export_bookings (db : DB) (event_date : Option Nat) (event_time : Option Time)
    (event_id : Option Nat) (limit : Nat) : List Booking :=
  (List.insertionSort bookingAscLE (adminFilter db event_date event_time event_id)).take limit

/-- The shared credential check: fixed username `admin` and the configured
password (`credentials.password != ADMIN_PASSWORD` can never pass when the
configured value is absent, since a supplied password is a string). -/
def authOk (adminPw : Option String) (user pw : String) : Bool :=
  user == "admin" && adminPw == some pw

/-- `GET /api/admin/bookings` with its auth preamble: a falsy configured
password responds 500 before the credential check; bad credentials 401. -/
def admin_bookings_endpoint (adminPw : Option String) (user pw : String)
    (db : DB) (skip limit : Nat) (event_date : Option Nat)
    (event_time : Option Time) (event_id : Option Nat) :
    Except Nat (Nat × List Booking) :=
  if pyFalsyOptStr adminPw then .error 500
  else if !(authOk adminPw user pw) then .error 401
  else .ok (get_all_bookings db skip limit event_date event_time event_id)

/-- `GET /api/bookings/pdf` with its auth preamble: a falsy configured password
or bad credentials both respond 401. -/
def export_pdf_endpoint (adminPw : Option String) (user pw : String) (db : DB)
    (event_date : Option Nat) (event_time : Option Time) (event_id : Option Nat)
    (limit : Nat) : Except Nat (List Booking) :=
  if pyFalsyOptStr adminPw || !(authOk adminPw user pw) then .error 401
  else .ok (export_bookings db event_date event_time event_id limit)

/-- `POST /api/admin/special-events`: 401 unless the credentials match the
configured password; otherwise insert the event (with the fresh id). -/
def create_special_event_endpoint (adminPw : Option String) (user pw : String)
    (ev : SpecialEventCreate) (newId : Nat) (db : DB) :
    Except Nat (DB × SpecialEvent) :=
  if !(authOk adminPw user pw) then .error 401
  else
    let e : SpecialEvent :=
      ⟨newId, ev.display_name, ev.booking_date, ev.booking_time, ev.is_closed⟩
    .ok ({ db with special_events := db.special_events ++ [e] }, e)

/-- `ORDER BY booking_date, booking_time` for special events. -/
def specialEventLE (a b : SpecialEvent) : Prop :=
  a.booking_date < b.booking_date ∨
    (a.booking_date = b.booking_date ∧ timeKeyOpt a.booking_time ≤ timeKeyOpt b.booking_time)

instance : DecidableRel specialEventLE := fun a b => by
  unfold specialEventLE; infer_instance

instance : IsTotal SpecialEvent specialEventLE := ⟨by intro a b; unfold specialEventLE; omega⟩

instance : IsTrans SpecialEvent specialEventLE := ⟨by intro a b c; unfold specialEventLE; omega⟩

/-- `GET /api/admin/special-events`: 401 unless authorized, else the ordered
event list. -/
def list_special_events_endpoint (adminPw : Option String) (user pw : String)
    (db : DB) : Except Nat (List SpecialEvent) :=
  if !(authOk adminPw user pw) then .error 401
  else .ok (List.insertionSort specialEventLE db.special_events)

/-- `DELETE /api/admin/special-events/id`: 401 unless authorized; 404 when the
id is unknown; else the cascade delete. -/
def delete_special_event_endpoint (adminPw : Option String) (user pw : String)
    (eid : Nat) (db : DB) : Except Nat (SpecialEvent × DB) :=
  if !(authOk adminPw user pw) then .error 401
  else
    match delete_special_event eid db with
    | (none, _) => .error 404
    | (some e, db2) => .ok (e, db2)

/-- When the keys `f` of a list are pairwise distinct and `p` holds exactly on
key `k`, erasing the first `p`-match removes precisely the `p`-elements. -/
theorem mem_eraseP_of_key_nodup {α β : Type} (f : α → β) (p : α → Bool) (k : β)
    (hp : ∀ a, p a = true ↔ f a = k) :
    ∀ l : List α, (l.map f).Nodup → ∀ b, b ∈ l.eraseP p ↔ (b ∈ l ∧ p b = false) := by
  intro l
  induction l with
  | nil => intro _ b; simp
  | cons x xs ih =>
      intro hnd b
      rw [List.map_cons, List.nodup_cons] at hnd
      by_cases hx : p x
      · rw [List.eraseP_cons_of_pos hx]
        constructor
        · intro hb
          refine ⟨List.mem_cons_of_mem _ hb, ?_⟩
          by_contra hpb
          have hpb2 : p b = true := by
            cases h2 : p b with
            | false => exact absurd h2 hpb
            | true => rfl
          have hmem : f b ∈ List.map f xs := List.mem_map_of_mem f hb
          rw [(hp b).mp hpb2, ← (hp x).mp hx] at hmem
          exact hnd.1 hmem
        · intro ⟨hb, hpb⟩
          cases List.mem_cons.mp hb with
          | inl he => rw [he] at hpb; rw [hx] at hpb; cases hpb
          | inr h2 => exact h2
      · rw [List.eraseP_cons_of_neg (by simpa using hx)]
        have := ih hnd.2 b
        constructor
        · intro hb
          cases List.mem_cons.mp hb with
          | inl he =>
              refine ⟨he ▸ List.mem_cons_self x xs, ?_⟩
              rw [he]; cases h2 : p x with
              | false => rfl
              | true => exact absurd h2 hx
          | inr h2 =>
              have := this.mp h2
              exact ⟨List.mem_cons_of_mem _ this.1, this.2⟩
        · intro ⟨hb, hpb⟩
          cases List.mem_cons.mp hb with
          | inl he => exact he ▸ List.mem_cons_self x _
          | inr h2 => exact List.mem_cons_of_mem _ (this.mpr ⟨h2, hpb⟩)

/-- Claim C5: cancellation with a token held by some stored booking deletes
exactly that booking (and nothing else) and reports success; with an unknown
or already-used token it reports not-found and leaves the state unchanged. -/
theorem claim_C5_cancellation (token : String) (db : DB)
    (hnd : (db.bookings.map (·.cancellation_token)).Nodup) :
    ((∃ bk ∈ db.bookings, bk.cancellation_token = token) →
      (cancel_booking token db).1 = .success ∧
      (∀ b, b ∈ (cancel_booking token db).2.bookings ↔
        (b ∈ db.bookings ∧ b.cancellation_token ≠ token)) ∧
      (cancel_booking token db).2.bookings.length + 1 = db.bookings.length ∧
      (cancel_booking token db).2.special_events = db.special_events) ∧
    ((¬ ∃ bk ∈ db.bookings, bk.cancellation_token = token) →
      cancel_booking token db = (.notFound, db)) := by
  have hkey : ∀ b : Booking,
      (b.cancellation_token == token) = true ↔ b.cancellation_token = token := by
    intro b; simp
  cases hfind : db.bookings.find? (fun b => b.cancellation_token == token) with
  | none =>
      have hnone := List.find?_eq_none.mp hfind
      constructor
      · intro ⟨bk, hbk, htok⟩
        exact absurd ((hkey bk).mpr htok) (hnone bk hbk)
      · intro _
        unfold cancel_booking
        rw [hfind]
  | some bk =>
      have hbkmem : bk ∈ db.bookings := List.mem_of_find?_eq_some hfind
      have hbktok : bk.cancellation_token = token := by
        have := List.find?_some hfind
        simpa using this
      constructor
      · intro _
        unfold cancel_booking
        rw [hfind]
        refine ⟨rfl, ?_, ?_, rfl⟩
        · intro b
          have := mem_eraseP_of_key_nodup (·.cancellation_token)
            (fun b => b.cancellation_token == token) token hkey db.bookings hnd b
          simpa using this
        · exact List.length_eraseP_add_one hbkmem ((hkey bk).mpr hbktok)
      · intro hno
        exact absurd ⟨bk, hbkmem, hbktok⟩ hno


/-- Concrete state for the C5 witness: a single stored booking with token
`tok1`. -/
def sampleDBcancel : DB :=
  { bookings := [⟨1, none, "A", "a@x.it", "0", 3, none, 4, "tok1", none⟩],
    special_events := [] }

/-- Witness for C5 at a concrete state. -/
theorem claim_C5_cancellation_witness :
    ((∃ bk ∈ sampleDBcancel.bookings, bk.cancellation_token = "tok1") →
      (cancel_booking "tok1" sampleDBcancel).1 = .success ∧
      (∀ b, b ∈ (cancel_booking "tok1" sampleDBcancel).2.bookings ↔
        (b ∈ sampleDBcancel.bookings ∧ b.cancellation_token ≠ "tok1")) ∧
      (cancel_booking "tok1" sampleDBcancel).2.bookings.length + 1 =
        sampleDBcancel.bookings.length ∧
      (cancel_booking "tok1" sampleDBcancel).2.special_events =
        sampleDBcancel.special_events) ∧
    ((¬ ∃ bk ∈ sampleDBcancel.bookings, bk.cancellation_token = "tok1") →
      cancel_booking "tok1" sampleDBcancel = (.notFound, sampleDBcancel)) :=
  claim_C5_cancellation "tok1" sampleDBcancel (by decide)

/-- Claim C6: deleting a special event by id removes it together with every
booking referencing it; all other events and bookings survive; an unknown id
is a not-found no-op. -/
theorem claim_C6_cascade_delete (eid : Nat) (db : DB)
    (hnd : (db.special_events.map (·.id)).Nodup) :
    ((∃ e ∈ db.special_events, e.id = eid) →
      (∃ e, (delete_special_event eid db).1 = some e ∧ e.id = eid ∧
        e ∈ db.special_events) ∧
      (∀ e2, e2 ∈ (delete_special_event eid db).2.special_events ↔
        (e2 ∈ db.special_events ∧ e2.id ≠ eid)) ∧
      (∀ b, b ∈ (delete_special_event eid db).2.bookings ↔
        (b ∈ db.bookings ∧ b.event_id ≠ some eid))) ∧
    ((¬ ∃ e ∈ db.special_events, e.id = eid) →
      delete_special_event eid db = (none, db)) := by
  have hkey : ∀ e : SpecialEvent, ((e.id == eid) = true) ↔ e.id = eid := by
    intro e; simp
  cases hfind : db.special_events.find? (fun e => e.id == eid) with
  | none =>
      have hnone := List.find?_eq_none.mp hfind
      constructor
      · intro ⟨e, he, hid⟩
        exact absurd ((hkey e).mpr hid) (hnone e he)
      · intro _
        unfold delete_special_event
        rw [hfind]
  | some e =>
      have hemem : e ∈ db.special_events := List.mem_of_find?_eq_some hfind
      have heid : e.id = eid := by
        have := List.find?_some hfind
        simpa using this
      constructor
      · intro _
        unfold delete_special_event
        rw [hfind]
        refine ⟨⟨e, rfl, heid, hemem⟩, ?_, ?_⟩
        · intro e2
          have := mem_eraseP_of_key_nodup (·.id) (fun e => e.id == eid) eid hkey
            db.special_events hnd e2
          simpa using this
        · intro b
          simp only [List.mem_filter]
          constructor
          · intro ⟨hb, hcond⟩
            refine ⟨hb, ?_⟩
            intro hcontra
            rw [hcontra] at hcond
            simp at hcond
          · intro ⟨hb, hne⟩
            refine ⟨hb, ?_⟩
            simpa using hne
      · intro hno
        exact absurd ⟨e, hemem, heid⟩ hno

/-- Concrete state for the C6 witness: two events, two bookings (one of which
references event 7), plus an unrelated booking. -/
def sampleDBdel : DB :=
  { bookings :=
      [⟨1, some 7, "A", "a@x.it", "0", 3, none, 4, "t1", none⟩,
       ⟨2, none, "B", "b@x.it", "0", 3, some ⟨12, 0⟩, 2, "t2", none⟩],
    special_events :=
      [⟨7, "Ev7", 3, none, false⟩, ⟨8, "Ev8", 4, some ⟨21, 0⟩, false⟩] }

/-- Witness for C6 at a concrete state. -/
theorem claim_C6_cascade_delete_witness :
    ((∃ e ∈ sampleDBdel.special_events, e.id = 7) →
      (∃ e, (delete_special_event 7 sampleDBdel).1 = some e ∧ e.id = 7 ∧
        e ∈ sampleDBdel.special_events) ∧
      (∀ e2, e2 ∈ (delete_special_event 7 sampleDBdel).2.special_events ↔
        (e2 ∈ sampleDBdel.special_events ∧ e2.id ≠ 7)) ∧
      (∀ b, b ∈ (delete_special_event 7 sampleDBdel).2.bookings ↔
        (b ∈ sampleDBdel.bookings ∧ b.event_id ≠ some 7))) ∧
    ((¬ ∃ e ∈ sampleDBdel.special_events, e.id = 7) →
      delete_special_event 7 sampleDBdel = (none, sampleDBdel)) :=
  claim_C6_cascade_delete 7 sampleDBdel (by decide)

/-- Claim C7 (amended): with the admin password unconfigured every admin
endpoint fails closed whatever the supplied credentials, but only the bookings
listing answers with a server error (500); the PDF export and the
special-event endpoints answer 401. -/
theorem claim_C7_fail_closed (user pw : String) (db : DB) (skip limit : Nat)
    (event_date : Option Nat) (event_time : Option Time) (event_id : Option Nat)
    (ev : SpecialEventCreate) (newId eid lim : Nat) :
    admin_bookings_endpoint none user pw db skip limit event_date event_time event_id =
      .error 500 ∧
    export_pdf_endpoint none user pw db event_date event_time event_id lim =
      .error 401 ∧
    create_special_event_endpoint none user pw ev newId db = .error 401 ∧
    list_special_events_endpoint none user pw db = .error 401 ∧
    delete_special_event_endpoint none user pw eid db = .error 401 := by
  refine ⟨rfl, ?_, ?_, ?_, ?_⟩ <;>
    simp [export_pdf_endpoint, create_special_event_endpoint,
      list_special_events_endpoint, delete_special_event_endpoint, authOk,
      pyFalsyOptStr]

/-- Counterexample to C7 as stated: with the password unconfigured the PDF
export responds 401 unauthorized, not a server-error (500). -/
theorem claim_C7_counterexample :
    export_pdf_endpoint none "admin" "guess" ⟨[], []⟩ none none none 1000 =
      .error 401 ∧ (401 : Nat) ≠ 500 := by
  exact ⟨rfl, by decide⟩

/-- Claim C10: with no (truthy) `event_id` and only one of `event_date` and
`event_time` supplied, the admin listing applies no filter at all: total and
page match the unfiltered request. -/
theorem claim_C10_half_filter (db : DB) (skip limit : Nat)
    (event_date : Option Nat) (event_time : Option Time)
    (h : (event_date ≠ none ∧ event_time = none) ∨
      (event_date = none ∧ event_time ≠ none)) :
    get_all_bookings db skip limit event_date event_time none =
      get_all_bookings db skip limit none none none := by
  unfold get_all_bookings adminFilter
  rcases h with ⟨hd, ht⟩ | ⟨hd, ht⟩
  · cases event_date with
    | none => exact absurd rfl hd
    | some d => rw [ht]
  · cases event_time with
    | none => exact absurd rfl ht
    | some t => rw [hd]

/-- Witness for C10: a concrete two-booking state where only `event_date` is
supplied. -/
theorem claim_C10_half_filter_witness :
    get_all_bookings sampleDBdel 0 10 (some 3) none none =
      get_all_bookings sampleDBdel 0 10 none none none :=
  claim_C10_half_filter sampleDBdel 0 10 (some 3) none (Or.inl ⟨by decide, rfl⟩)

/-- Two special-event rows agreeing on everything except possibly `is_closed`. -/
def agreeExceptClosed (a b : SpecialEvent) : Prop :=
  a.id = b.id ∧ a.display_name = b.display_name ∧
    a.booking_date = b.booking_date ∧ a.booking_time = b.booking_time

/-- Forget the `special_events` component carried through a successful booking
result, exposing exactly the caller-observable outcome (decision, message,
persisted bookings, returned record). -/
def stripEvents : BookingResult → BookingResult
  | .ok db b => .ok { db with special_events := [] } b
  | r => r

/-- `create_booking` reads only the `bookings` table: its observable outcome is
unchanged under any replacement of the `special_events` table. -/
theorem create_booking_ignores_events (req : BookingCreate) (newId : Nat)
    (newToken : String) (bk : List Booking) (s s' : List SpecialEvent) :
    stripEvents (create_booking req newId newToken ⟨bk, s⟩) =
      stripEvents (create_booking req newId newToken ⟨bk, s'⟩) := by
  unfold create_booking
  have hbb : bucketBooked req ⟨bk, s⟩ = bucketBooked req ⟨bk, s'⟩ := rfl
  dsimp only
  rw [hbb]
  by_cases h1 : bk.any (isDuplicateOf req)
  · simp only [h1, if_true]
  · simp only [h1, if_false]
    by_cases h2 : bucketBooked req ⟨bk, s'⟩ + req.guests > MAX_GUESTS
    · simp only [h2, if_true]
    · simp only [h2, if_false]
      by_cases h3 : bk.any (fun b => b.email == req.email || b.cancellation_token == newToken)
      · simp only [h3, if_true]
      · simp only [h3, if_false]
        rfl

/-- The catalog entries built from two lists of events that agree except on
`is_closed` coincide. -/
theorem catalog_entries_ignore_closed (today : Nat) :
    ∀ s1 s2 : List SpecialEvent, List.Forall₂ agreeExceptClosed s1 s2 →
      ((s1.filter fun e => today ≤ e.booking_date).map specialEntry) =
        ((s2.filter fun e => today ≤ e.booking_date).map specialEntry) := by
  intro s1 s2 h
  induction h with
  | nil => rfl
  | @cons a b l1 l2 hab htail ih =>
      obtain ⟨hid, hname, hdate, htime⟩ := hab
      by_cases hd : today ≤ a.booking_date
      · rw [List.filter_cons_of_pos (by simpa using hd),
          List.filter_cons_of_pos (by simpa [← hdate] using hd)]
        simp only [List.map_cons, ih]
        congr 1
        unfold specialEntry
        rw [hid, hdate, htime]
      · rw [List.filter_cons_of_neg (by simpa using hd),
          List.filter_cons_of_neg (by simpa [← hdate] using hd)]
        exact ih

/-- Claim C8: the `is_closed` flag never influences the Event Catalog or
Booking Admission: states differing only in some events' `is_closed` values
produce an identical catalog and identical admission outcomes. -/
theorem claim_C8_is_closed_noninterference (today : Nat)
    (s1 s2 : List SpecialEvent) (h : List.Forall₂ agreeExceptClosed s1 s2) :
    get_bookable_events today s1 = get_bookable_events today s2 ∧
    ∀ (req : BookingCreate) (newId : Nat) (newToken : String) (bk : List Booking),
      stripEvents (create_booking req newId newToken ⟨bk, s1⟩) =
        stripEvents (create_booking req newId newToken ⟨bk, s2⟩) := by
  refine ⟨?_, fun req newId newToken bk => create_booking_ignores_events _ _ _ _ _ _⟩
  unfold get_bookable_events
  rw [catalog_entries_ignore_closed today s1 s2 h]

/-- Witness for C8: a closed and an open copy of the same event yield the same
catalog and the same admission outcome for a sample request. -/
theorem claim_C8_is_closed_noninterference_witness :
    get_bookable_events 0 [⟨7, "Ev7", 3, some ⟨21, 0⟩, false⟩] =
      get_bookable_events 0 [⟨7, "Ev7", 3, some ⟨21, 0⟩, true⟩] ∧
    ∀ (req : BookingCreate) (newId : Nat) (newToken : String) (bk : List Booking),
      stripEvents (create_booking req newId newToken ⟨bk, [⟨7, "Ev7", 3, some ⟨21, 0⟩, false⟩]⟩) =
        stripEvents (create_booking req newId newToken ⟨bk, [⟨7, "Ev7", 3, some ⟨21, 0⟩, true⟩]⟩) :=
  claim_C8_is_closed_noninterference 0 _ _
    (List.Forall₂.cons ⟨rfl, rfl, rfl, rfl⟩ List.Forall₂.nil)

/-- The row inserted by a successful `create_booking`. -/
def newBooking (req : BookingCreate) (newId : Nat) (newToken : String) : Booking :=
  ⟨newId, req.event_id, req.name, req.email, req.phone, req.booking_date,
    req.booking_time, req.guests, newToken, req.notes⟩

/-- Past a failed duplicate check, `create_booking` is the capacity check
followed by the constrained insert. -/
theorem create_booking_eq_of_no_dup (req : BookingCreate) (newId : Nat)
    (newToken : String) (db : DB)
    (hnd : ∀ b ∈ db.bookings, ¬ isDuplicateOf req b = true) :
    create_booking req newId newToken db =
      if bucketBooked req db + req.guests > MAX_GUESTS then
        .capacityExceeded (capacityMessage req (bucketBooked req db))
      else if db.bookings.any (fun b =>
          b.email == req.email || b.cancellation_token == newToken) then
        .integrityError
      else
        .ok { db with bookings := db.bookings ++ [newBooking req newId newToken] }
          (newBooking req newId newToken) := by
  have h1 : db.bookings.any (isDuplicateOf req) = false := List.any_eq_false.mpr hnd
  unfold create_booking newBooking
  rw [h1]
  rfl

/-- Claim C1: with no duplicate on file, admission computes the bucket's guest
sum and rejects with the capacity message exactly when it would exceed 25; the
message carries the remaining seats (or the fully-booked text when none
remain) and the bucket context; a request landing exactly on 25 (with fresh
email and token) is accepted. -/
theorem claim_C1_capacity_rule (req : BookingCreate) (newId : Nat)
    (newToken : String) (db : DB)
    (hnd : ∀ b ∈ db.bookings, ¬ isDuplicateOf req b = true) :
    ((∃ m, create_booking req newId newToken db = .capacityExceeded m) ↔
      bucketBooked req db + req.guests > 25) ∧
    (bucketBooked req db + req.guests > 25 →
      create_booking req newId newToken db = .capacityExceeded
        (if 25 - bucketBooked req db ≤ 0 then
          "Spiacenti, siamo al completo " ++ errorContext req ++ "."
        else
          "Spiacenti, non c\x27è abbastanza posto " ++ errorContext req ++
            ". Posti rimasti: " ++ toString (25 - bucketBooked req db) ++ ".")) ∧
    (bucketBooked req db + req.guests = 25 →
      (∀ b ∈ db.bookings, b.email ≠ req.email) →
      (∀ b ∈ db.bookings, b.cancellation_token ≠ newToken) →
      create_booking req newId newToken db =
        .ok { db with bookings := db.bookings ++ [newBooking req newId newToken] }
          (newBooking req newId newToken)) := by
  rw [create_booking_eq_of_no_dup req newId newToken db hnd]
  have hmax : MAX_GUESTS = 25 := rfl
  refine ⟨?_, ?_, ?_⟩
  · constructor
    · intro ⟨m, hm⟩
      by_contra hle
      rw [hmax] at hm
      rw [if_neg hle] at hm
      by_cases h2 : db.bookings.any (fun b =>
          b.email == req.email || b.cancellation_token == newToken)
      · rw [if_pos h2] at hm; cases hm
      · rw [if_neg h2] at hm; cases hm
    · intro hgt
      rw [hmax, if_pos hgt]
      exact ⟨_, rfl⟩
  · intro hgt
    rw [hmax, if_pos hgt]
    unfold capacityMessage
    rw [hmax]
  · intro heq hem htok
    have hng : ¬ bucketBooked req db + req.guests > MAX_GUESTS := by
      rw [hmax, heq]; omega
    rw [if_neg hng]
    have h2 : db.bookings.any (fun b =>
        b.email == req.email || b.cancellation_token == newToken) = false := by
      rw [List.any_eq_false]
      intro b hb
      simp only [Bool.or_eq_true, beq_iff_eq, not_or]
      exact ⟨hem b hb, htok b hb⟩
    rw [h2]
    rfl

/-- Concrete state for the C1 witness: a brunch turn already holding 20
guests. -/
def dbC1 : DB :=
  { bookings := [⟨1, none, "A", "a@x.it", "0", 3, some ⟨12, 0⟩, 20, "t1", none⟩],
    special_events := [] }

/-- Concrete request for the C1 witness: 10 more guests for the same turn. -/
def reqC1 : BookingCreate := ⟨none, "B", "b@x.it", "0", 3, some ⟨12, 0⟩, 10, none⟩

/-- Witness for C1: over a turn holding 20 guests, the capacity rule is
exercised at a concrete request for 10. -/
theorem claim_C1_capacity_rule_witness :
    ((∃ m, create_booking reqC1 2 "t2" dbC1 = .capacityExceeded m) ↔
      bucketBooked reqC1 dbC1 + reqC1.guests > 25) ∧
    (bucketBooked reqC1 dbC1 + reqC1.guests > 25 →
      create_booking reqC1 2 "t2" dbC1 = .capacityExceeded
        (if 25 - bucketBooked reqC1 dbC1 ≤ 0 then
          "Spiacenti, siamo al completo " ++ errorContext reqC1 ++ "."
        else
          "Spiacenti, non c\x27è abbastanza posto " ++ errorContext reqC1 ++
            ". Posti rimasti: " ++ toString (25 - bucketBooked reqC1 dbC1) ++ ".")) ∧
    (bucketBooked reqC1 dbC1 + reqC1.guests = 25 →
      (∀ b ∈ dbC1.bookings, b.email ≠ reqC1.email) →
      (∀ b ∈ dbC1.bookings, b.cancellation_token ≠ "t2") →
      create_booking reqC1 2 "t2" dbC1 =
        .ok { dbC1 with bookings := dbC1.bookings ++ [newBooking reqC1 2 "t2"] }
          (newBooking reqC1 2 "t2")) :=
  claim_C1_capacity_rule reqC1 2 "t2" dbC1 (by decide)

/-- Modelled from the spec words for comparison: the evening bucket total as
the amended claim states it — every booking on the date whose time is present
and not a brunch slot. -/
def eveningBookedPresent (db : DB) (d : Nat) : Int :=
  ((db.bookings.filter fun b =>
      b.booking_date == d && b.booking_time != none &&
        !(inBrunchSlots b.booking_time)).map (·.guests)).sum

/-- For a non-brunch request the code's bucket sum is the amended claim's
evening total: present non-brunch times on the date. -/
theorem bucketBooked_evening_eq (req : BookingCreate) (db : DB)
    (hnb : inBrunchSlots req.booking_time = false) :
    bucketBooked req db = eveningBookedPresent db req.booking_date := by
  unfold bucketBooked eveningBookedPresent
  rw [if_neg (by simp [hnb])]
  congr 1
  congr 1
  apply List.filter_congr
  intro b _
  cases hb : b.booking_time with
  | none => simp [sqlNotInBrunch, hb]
  | some t => simp [sqlNotInBrunch, inBrunchSlots, hb, bne]

/-- Claim C2 (amended): for a request outside the brunch slots the bucket is
keyed by date only and aggregates every booking on that date whose time is
present and not a brunch slot; a booking with an absent time is never counted
(the SQL `NOT IN` filter drops NULL rows). -/
theorem claim_C2_evening_bucket (req : BookingCreate) (newId : Nat)
    (newToken : String) (db : DB)
    (hnb : inBrunchSlots req.booking_time = false)
    (hnd : ∀ b ∈ db.bookings, ¬ isDuplicateOf req b = true) :
    ((∃ m, create_booking req newId newToken db = .capacityExceeded m) ↔
      eveningBookedPresent db req.booking_date + req.guests > 25) ∧
    (∀ nb : Booking, nb.booking_time = none →
      bucketBooked req { db with bookings := db.bookings ++ [nb] } =
        bucketBooked req db) := by
  constructor
  · rw [← bucketBooked_evening_eq req db hnb]
    exact (claim_C1_capacity_rule req newId newToken db hnd).1
  · intro nb hnbtime
    unfold bucketBooked
    rw [if_neg (by simp [hnb]), if_neg (by simp [hnb])]
    simp [List.filter_append, sqlNotInBrunch, hnbtime]

/-- Concrete state for C2: one special-event booking with an absent time and
5 guests on day 0. -/
def dbC2 : DB :=
  { bookings := [⟨1, some 1, "A", "a@x.it", "0", 0, none, 5, "t1", none⟩],
    special_events := [⟨1, "Ev", 0, none, false⟩] }

/-- Concrete request for C2: 21 guests for the evening of day 0. -/
def reqC2 : BookingCreate := ⟨none, "B", "b@x.it", "0", 0, none, 21, none⟩

/-- Counterexample to C2 as stated: the claim's bucket total (every booking on
the date outside the brunch slots, absent times included) reaches 26 > 25, yet
the code accepts the request — the NULL-time row is not aggregated. -/
theorem claim_C2_counterexample :
    (∃ db2 nb, create_booking reqC2 2 "t2" dbC2 = .ok db2 nb) ∧
    ((dbC2.bookings.filter fun b =>
        b.booking_date == reqC2.booking_date && !(inBrunchSlots b.booking_time)).map
      (·.guests)).sum + reqC2.guests > 25 :=
  ⟨⟨_, _, rfl⟩, by decide⟩

/-- Witness for the amended C2 at a concrete evening request. -/
theorem claim_C2_evening_bucket_witness :
    ((∃ m, create_booking reqC2 2 "t2" dbC2 = .capacityExceeded m) ↔
      eveningBookedPresent dbC2 reqC2.booking_date + reqC2.guests > 25) ∧
    (∀ nb : Booking, nb.booking_time = none →
      bucketBooked reqC2 { dbC2 with bookings := dbC2.bookings ++ [nb] } =
        bucketBooked reqC2 dbC2) :=
  claim_C2_evening_bucket reqC2 2 "t2" dbC2 (by decide) (by decide)

/-- Concrete state for C9: a stored booking with email `a@x.it` for special
event 1. -/
def dbC9 : DB :=
  { bookings := [⟨1, some 1, "A", "a@x.it", "0", 3, some ⟨20, 0⟩, 2, "t1", none⟩],
    special_events := [⟨1, "Ev1", 3, some ⟨20, 0⟩, false⟩, ⟨2, "Ev2", 4, some ⟨20, 0⟩, false⟩] }

/-- Concrete request for C9: the same email booking a different special event. -/
def reqC9 : BookingCreate := ⟨some 2, "A", "a@x.it", "0", 4, some ⟨20, 0⟩, 2, none⟩

/-- Counterexample to C9 as stated: admission can also end in a third outcome —
the storage layer's unique-email integrity failure — which is neither the
duplicate-booking nor the capacity-exceeded error. -/
theorem claim_C9_counterexample :
    create_booking reqC9 2 "t2" dbC9 = .integrityError ∧
    (∀ m, BookingResult.integrityError ≠ .duplicate m) ∧
    (∀ m, BookingResult.integrityError ≠ .capacityExceeded m) := by
  refine ⟨rfl, ?_, ?_⟩ <;> intro m h <;> cases h

/-- Claim C9 (amended): admission applies no positivity check to the guest
count: a zero-or-negative request with a fresh email and token that clears the
duplicate and capacity checks is persisted as-is, and (when its time is
present) it lowers the bucket's booked sum for later requests by its negative
count. -/
theorem claim_C9_no_guest_validation (req : BookingCreate) (newId : Nat)
    (newToken : String) (db : DB)
    (hg : req.guests ≤ 0)
    (hnd : ∀ b ∈ db.bookings, ¬ isDuplicateOf req b = true)
    (hcap : bucketBooked req db + req.guests ≤ 25)
    (hem : ∀ b ∈ db.bookings, b.email ≠ req.email)
    (htok : ∀ b ∈ db.bookings, b.cancellation_token ≠ newToken) :
    create_booking req newId newToken db =
      .ok { db with bookings := db.bookings ++ [newBooking req newId newToken] }
        (newBooking req newId newToken) ∧
    (newBooking req newId newToken).guests = req.guests ∧
    (req.booking_time ≠ none →
      bucketBooked req { db with bookings := db.bookings ++ [newBooking req newId newToken] } =
        bucketBooked req db + req.guests) := by
  refine ⟨?_, rfl, ?_⟩
  · rw [create_booking_eq_of_no_dup req newId newToken db hnd]
    have hng : ¬ bucketBooked req db + req.guests > MAX_GUESTS := by
      have : MAX_GUESTS = 25 := rfl
      omega
    rw [if_neg hng]
    have h2 : db.bookings.any (fun b =>
        b.email == req.email || b.cancellation_token == newToken) = false := by
      rw [List.any_eq_false]
      intro b hb
      simp only [Bool.or_eq_true, beq_iff_eq, not_or]
      exact ⟨hem b hb, htok b hb⟩
    rw [h2]
    rfl
  · intro htime
    cases ht : req.booking_time with
    | none => exact absurd ht htime
    | some t =>
        unfold bucketBooked newBooking
        by_cases hbr : inBrunchSlots req.booking_time
        · rw [if_pos hbr, if_pos hbr]
          simp [List.filter_append, ht]
        · rw [if_neg hbr, if_neg hbr]
          have hsql : sqlNotInBrunch (some t) = true := by
            rw [ht] at hbr
            simp only [sqlNotInBrunch, inBrunchSlots] at hbr ⊢
            simpa using hbr
          simp [List.filter_append, ht, hsql]

/-- Concrete request for the C9 witness: a booking for minus three guests. -/
def reqC9b : BookingCreate := ⟨none, "C", "c@x.it", "0", 3, some ⟨12, 0⟩, -3, none⟩

/-- Witness for the amended C9: a minus-three-guest request over `dbC1` is
persisted and lowers the turn's booked sum. -/
theorem claim_C9_no_guest_validation_witness :
    create_booking reqC9b 2 "t2" dbC1 =
      .ok { dbC1 with bookings := dbC1.bookings ++ [newBooking reqC9b 2 "t2"] }
        (newBooking reqC9b 2 "t2") ∧
    (newBooking reqC9b 2 "t2").guests = reqC9b.guests ∧
    (reqC9b.booking_time ≠ none →
      bucketBooked reqC9b { dbC1 with bookings := dbC1.bookings ++ [newBooking reqC9b 2 "t2"] } =
        bucketBooked reqC9b dbC1 + reqC9b.guests) :=
  claim_C9_no_guest_validation reqC9b 2 "t2" dbC1 (by decide) (by decide)
    (by decide) (by decide) (by decide)

/-- Concrete state for C3: Dana has a booking for special event 5; event 6 is
a different special event. -/
def dbC3 : DB :=
  { bookings := [⟨1, some 5, "Dana", "dana@x.it", "1", 10, some ⟨19, 30⟩, 3, "tA", none⟩],
    special_events :=
      [⟨5, "Cena", 10, some ⟨19, 30⟩, false⟩, ⟨6, "Jazz", 11, some ⟨21, 0⟩, false⟩] }

/-- Concrete request for C3: the same email booking the other special event. -/
def reqC3 : BookingCreate := ⟨some 6, "Dana", "dana@x.it", "1", 11, some ⟨21, 0⟩, 2, none⟩

/-- Claim C3 at the failing input: the request is not a duplicate under the
handler's per-event rule (different special event), yet it is not persisted —
the insert violates the schema's global UNIQUE constraint on `email`
(`models.py`), contradicting the handler's documented per-event duplicate
scope. -/
theorem claim_C3_duplicate_scope :
    (∀ b ∈ dbC3.bookings, ¬ isDuplicateOf reqC3 b = true) ∧
    create_booking reqC3 2 "tB" dbC3 = .integrityError :=
  ⟨by decide, rfl⟩

/-- `sundaysFrom` returns as many days as requested. -/
theorem sundaysFrom_length : ∀ (d n : Nat), (sundaysFrom d n).length = n := by
  intro d n
  induction n generalizing d with
  | zero => rfl
  | succ n ih => simpa [sundaysFrom] using ih (nextSundayFrom d + 1)

/-- `nextSundayFrom d` is the unique Sunday in the week starting at `d`. -/
theorem nextSundayFrom_spec (d : Nat) :
    d ≤ nextSundayFrom d ∧ nextSundayFrom d % 7 = 6 ∧ nextSundayFrom d < d + 7 := by
  unfold nextSundayFrom; omega

/-- The scan collects consecutive Sundays: in closed form, the first Sunday on
or after `d` plus multiples of 7. -/
theorem sundaysFrom_closed : ∀ (n d : Nat),
    sundaysFrom d n = (List.range n).map (fun i => nextSundayFrom d + 7 * i) := by
  intro n
  induction n with
  | zero => intro d; rfl
  | succ n ih =>
      intro d
      have hmod : nextSundayFrom d % 7 = 6 := (nextSundayFrom_spec d).2.1
      have hstep : nextSundayFrom (nextSundayFrom d + 1) = nextSundayFrom d + 7 := by
        unfold nextSundayFrom
        omega
      rw [List.range_succ_eq_map]
      show nextSundayFrom d :: sundaysFrom (nextSundayFrom d + 1) n = _
      rw [List.map_cons, List.map_map, ih (nextSundayFrom d + 1), hstep]
      simp only [Nat.mul_zero, Nat.add_zero]
      congr 1
      apply List.map_congr_left
      intro i _
      simp only [Function.comp_apply]
      omega

/-- Claim C4: the catalog holds exactly 8 brunch entries — one per Sunday for
the next 8 Sundays counted from today inclusive, each offering the two slots
and no id — plus exactly the special events dated today or later, and the
merged list is sorted ascending by (date, effective time) where a brunch entry
sorts by its first offered slot and a timeless entry by the early-morning
placeholder. -/
theorem claim_C4_catalog (today : Nat) (specials : List SpecialEvent) :
    ((get_bookable_events today specials).filter
        (fun e => e.etype == .brunch)).length = 8 ∧
    (((get_bookable_events today specials).filter
        (fun e => e.etype == .brunch)).map (·.booking_date)).Perm
      ((List.range 8).map fun i => nextSundayFrom today + 7 * i) ∧
    (today ≤ nextSundayFrom today ∧ nextSundayFrom today % 7 = 6 ∧
      nextSundayFrom today < today + 7) ∧
    (∀ e ∈ get_bookable_events today specials, e.etype = .brunch →
      e.id = none ∧ e.available_slots = [⟨12, 0⟩, ⟨13, 30⟩]) ∧
    ((get_bookable_events today specials).filter
        (fun e => e.etype == .special)).Perm
      ((specials.filter fun e => today ≤ e.booking_date).map specialEntry) ∧
    (get_bookable_events today specials).Sorted entryLE := by
  have hperm :
      (get_bookable_events today specials).Perm
        ((specials.filter fun e => today ≤ e.booking_date).map specialEntry ++
          (sundaysFrom today 8).map brunchEntry) :=
    List.perm_insertionSort entryLE _
  have hbrunchfilter :
      (((specials.filter fun e => today ≤ e.booking_date).map specialEntry ++
          (sundaysFrom today 8).map brunchEntry).filter (fun e => e.etype == .brunch)) =
        (sundaysFrom today 8).map brunchEntry := by
    rw [List.filter_append, List.filter_map, List.filter_map]
    have h1 : ((fun e : CatalogEntry => e.etype == .brunch) ∘ specialEntry) =
        fun _ => false := by
      funext e; rfl
    have h2 : ((fun e : CatalogEntry => e.etype == .brunch) ∘ brunchEntry) =
        fun _ => true := by
      funext d; rfl
    rw [h1, h2]
    simp
  have hspecialfilter :
      (((specials.filter fun e => today ≤ e.booking_date).map specialEntry ++
          (sundaysFrom today 8).map brunchEntry).filter (fun e => e.etype == .special)) =
        (specials.filter fun e => today ≤ e.booking_date).map specialEntry := by
    rw [List.filter_append, List.filter_map, List.filter_map]
    have h1 : ((fun e : CatalogEntry => e.etype == .special) ∘ specialEntry) =
        fun _ => true := by
      funext e; rfl
    have h2 : ((fun e : CatalogEntry => e.etype == .special) ∘ brunchEntry) =
        fun _ => false := by
      funext d; rfl
    rw [h1, h2]
    simp
  have hbperm :
      ((get_bookable_events today specials).filter
          (fun e => e.etype == .brunch)).Perm ((sundaysFrom today 8).map brunchEntry) := by
    have := hperm.filter (fun e => e.etype == .brunch)
    rwa [hbrunchfilter] at this
  refine ⟨?_, ?_, ?_, ?_, ?_, ?_⟩
  · rw [hbperm.length_eq, List.length_map, sundaysFrom_length]
  · have := hbperm.map (·.booking_date)
    rw [List.map_map] at this
    have hid : ((fun e : CatalogEntry => e.booking_date) ∘ brunchEntry) = id := by
      funext d; rfl
    rw [hid, List.map_id, sundaysFrom_closed] at this
    exact this
  · exact ⟨(nextSundayFrom_spec today).1, (nextSundayFrom_spec today).2.1,
      (nextSundayFrom_spec today).2.2⟩
  · intro e he hbr
    have hmem := hperm.mem_iff.mp he
    rcases List.mem_append.mp hmem with hA | hB
    · obtain ⟨x, _, hx⟩ := List.mem_map.mp hA
      rw [← hx] at hbr
      cases hbr
    · obtain ⟨d, _, hd⟩ := List.mem_map.mp hB
      rw [← hd]
      exact ⟨rfl, rfl⟩
  · have := hperm.filter (fun e => e.etype == .special)
    rwa [hspecialfilter] at this
  · exact List.sorted_insertionSort entryLE _

/-- Witness for C4 at a concrete date (a Wednesday, day 2) and one stored
special event in the past and one in the future. -/
theorem claim_C4_catalog_witness :
    ((get_bookable_events 2 [⟨1, "Past", 0, none, false⟩, ⟨2, "Fut", 5, some ⟨21, 0⟩, false⟩]).filter
        (fun e => e.etype == .brunch)).length = 8 ∧
    (((get_bookable_events 2 [⟨1, "Past", 0, none, false⟩, ⟨2, "Fut", 5, some ⟨21, 0⟩, false⟩]).filter
        (fun e => e.etype == .brunch)).map (·.booking_date)).Perm
      ((List.range 8).map fun i => nextSundayFrom 2 + 7 * i) ∧
    (2 ≤ nextSundayFrom 2 ∧ nextSundayFrom 2 % 7 = 6 ∧ nextSundayFrom 2 < 2 + 7) ∧
    (∀ e ∈ get_bookable_events 2 [⟨1, "Past", 0, none, false⟩, ⟨2, "Fut", 5, some ⟨21, 0⟩, false⟩],
      e.etype = .brunch → e.id = none ∧ e.available_slots = [⟨12, 0⟩, ⟨13, 30⟩]) ∧
    ((get_bookable_events 2 [⟨1, "Past", 0, none, false⟩, ⟨2, "Fut", 5, some ⟨21, 0⟩, false⟩]).filter
        (fun e => e.etype == .special)).Perm
      (([⟨1, "Past", 0, none, false⟩, ⟨2, "Fut", 5, some ⟨21, 0⟩, false⟩].filter
        (fun e : SpecialEvent => 2 ≤ e.booking_date)).map specialEntry) ∧
    (get_bookable_events 2 [⟨1, "Past", 0, none, false⟩, ⟨2, "Fut", 5, some ⟨21, 0⟩, false⟩]).Sorted entryLE :=
  claim_C4_catalog 2 [⟨1, "Past", 0, none, false⟩, ⟨2, "Fut", 5, some ⟨21, 0⟩, false⟩]
